import Mathlib

/-!
Verification development for the smart email search workflow
(`backend/workflows/search_workflow.py`).

The pipeline is embedded shallowly:
* Python strings are `String` / `List Char` (the query is ASCII-lowercased
  with `Char.toLower`, matching `str.lower` on the ASCII inputs involved);
* Python floats (relevance scores) are modelled as exact rationals `ℚ`,
  so "equality within tolerance 1e-9" becomes exact equality;
* `datetime` values are seconds since the Unix epoch (`Int`, UTC);
* the Postgres and Qdrant collaborators are explicit inputs (a list of
  rows, and an `Except`-valued response);
* the regular expressions of `_parse_query` are hand-compiled to
  dedicated matchers with Python `re` semantics (leftmost match, greedy
  quantifiers with the backtracking the concrete patterns need,
  `\b` word boundaries).
-/

namespace SmartSearch

abbrev Chars := List Char

/-- The whitespace class `\s` of Python `re` (ASCII part), also used for
`str.strip` and `str.split`. -/
def isPySpace (c : Char) : Bool :=
  c = ' ' || c = '\t' || c = '\n' || c = '\r' || c = '\x0b' || c = '\x0c'

/-- The ASCII letters, the class `[a-zA-Z]`. -/
def isAlphaAscii (c : Char) : Bool :=
  ('a' ≤ c && c ≤ 'z') || ('A' ≤ c && c ≤ 'Z')

/-- The word class `\w` (ASCII part): letters, digits, underscore. -/
def isWordChar (c : Char) : Bool :=
  isAlphaAscii c || c.isDigit || c = '_'

/-- Word-character test on an optional character; a missing character
(string edge) counts as a non-word character, as for `\b`. -/
def wordB : Option Char → Bool
  | none => false
  | some c => isWordChar c

/-- Lowercase every character of a string (`str.lower` on ASCII). -/
def lowerStr (s : String) : String := String.mk (s.toList.map Char.toLower)

/-- Strip leading and trailing whitespace (`str.strip`). -/
def pyStrip (cs : Chars) : Chars :=
  ((cs.dropWhile isPySpace).reverse.dropWhile isPySpace).reverse

/-- Does `pat` occur at the start of the text? -/
def prefixMatch : Chars → Chars → Bool
  | [], _ => true
  | _ :: _, [] => false
  | a :: as, b :: bs => a == b && prefixMatch as bs

/-- Substring occurrence test, Python's `pat in s`. -/
def containsSub (pat : Chars) : Chars → Bool
  | [] => pat.isEmpty
  | c :: cs => prefixMatch pat (c :: cs) || containsSub pat cs

/-- Remove every (leftmost, non-overlapping) occurrence of the nonempty
literal `pat`, Python's `s.replace(pat, '')`.  `fuel` bounds the
recursion; callers pass the text length plus one, which suffices because
every step consumes at least one character. -/
def removeAllGo (pat : Chars) : Nat → Chars → Chars
  | 0, cs => cs
  | _ + 1, [] => []
  | fuel + 1, c :: cs =>
    if prefixMatch pat (c :: cs) then removeAllGo pat fuel ((c :: cs).drop pat.length)
    else c :: removeAllGo pat fuel cs

def removeAll (pat cs : Chars) : Chars := removeAllGo pat (cs.length + 1) cs

/-- Match a literal at the head of the text, returning the rest. -/
def matchLit : Chars → Chars → Option Chars
  | [], rest => some rest
  | _ :: _, [] => none
  | l :: ls, c :: cs => if l = c then matchLit ls cs else none

/-- Greedy `p+`: at least one character of class `p`, as many as possible. -/
def matchPlus (p : Char → Bool) : Chars → Option Chars
  | [] => none
  | c :: cs => if p c then some (cs.dropWhile p) else none

/-- A compiled regex fragment: given the previous character (for `\b`) and
the text at the current position, return the captured value and the rest
of the text after the match. -/
abbrev MatchFn (α : Type) := Option Char → Chars → Option (α × Chars)

/-- Scan for the first match anywhere in the text (`re.search`),
trying positions left to right. -/
def searchGo (m : MatchFn α) : Nat → Option Char → Chars → Option α
  | 0, _, _ => none
  | _ + 1, prev, [] => (m prev []).map (·.1)
  | fuel + 1, prev, c :: cs =>
    match m prev (c :: cs) with
    | some (a, _) => some a
    | none => searchGo m fuel (some c) cs

def reSearch (m : MatchFn α) (cs : Chars) : Option α :=
  searchGo m (cs.length + 1) none cs

/-- Collect the captures of all leftmost non-overlapping matches
(`re.findall`). -/
def scanGo (m : MatchFn α) : Nat → Option Char → Chars → List α
  | 0, _, _ => []
  | _ + 1, _, [] => []
  | fuel + 1, prev, c :: cs =>
    match m prev (c :: cs) with
    | some (a, rest) =>
      let consumed := (c :: cs).take ((c :: cs).length - rest.length)
      a :: scanGo m fuel (consumed.getLast? <|> prev) rest
    | none => scanGo m fuel (some c) cs

def reFindall (m : MatchFn α) (cs : Chars) : List α :=
  scanGo m (cs.length + 1) none cs

/-- Delete all leftmost non-overlapping matches (`re.sub(pat, '', s)`). -/
def subGo (m : MatchFn α) : Nat → Option Char → Chars → Chars
  | 0, _, cs => cs
  | _ + 1, _, [] => []
  | fuel + 1, prev, c :: cs =>
    match m prev (c :: cs) with
    | some (_, rest) =>
      let consumed := (c :: cs).take ((c :: cs).length - rest.length)
      subGo m fuel (consumed.getLast? <|> prev) rest
    | none => c :: subGo m fuel (some c) cs

def reSub (m : MatchFn α) (cs : Chars) : Chars :=
  subGo m (cs.length + 1) none cs

/-- The local-part class `[a-zA-Z0-9._%+-]` of the e-mail pattern. -/
def isLocalChar (c : Char) : Bool :=
  isAlphaAscii c || c.isDigit || c = '.' || c = '_' || c = '%' || c = '+' || c = '-'

/-- The domain class `[a-zA-Z0-9.-]` of the e-mail pattern. -/
def isDomainChar (c : Char) : Bool :=
  isAlphaAscii c || c.isDigit || c = '.' || c = '-'

/-- Backtracking of `[a-zA-Z0-9.-]+\.[a-zA-Z]{2,}` inside the maximal
domain-character run: the largest split index `n` with a dot at `n`
followed by at least two letters, as Python's greedy `+` finds. -/
def lastGoodDot (run : Chars) : Option Nat :=
  (List.range run.length).reverse.find? (fun n =>
    ((run.drop n).head? == some '.') &&
      decide (2 ≤ ((run.drop (n + 1)).takeWhile isAlphaAscii).length))

/-- Match the e-mail regex `[a-zA-Z0-9._%+-]+@[a-zA-Z0-9.-]+\.[a-zA-Z]{2,}`
at the current position, returning the matched text and the rest. -/
def pEmail (cs : Chars) : Option (Chars × Chars) :=
  let lpart := cs.takeWhile isLocalChar
  if lpart.isEmpty then none else
  match cs.drop lpart.length with
  | '@' :: cs2 =>
    let run := cs2.takeWhile isDomainChar
    let rest0 := cs2.drop run.length
    match lastGoodDot run with
    | none => none
    | some n =>
      let tld := (run.drop (n + 1)).takeWhile isAlphaAscii
      some (lpart ++ '@' :: (run.take n ++ '.' :: tld),
            (run.drop (n + 1)).drop tld.length ++ rest0)
  | _ => none

/-- Sender pattern 1, `from\s+([a-zA-Z0-9._%+-]+@[a-zA-Z0-9.-]+\.[a-zA-Z]{2,})`;
the capture is the e-mail address. -/
def pFromEmail : MatchFn Chars := fun _ cs =>
  match matchLit "from".toList cs with
  | none => none
  | some r1 =>
    match matchPlus isPySpace r1 with
    | none => none
    | some r2 => pEmail r2

/-- Sender pattern 2, `from\s+(\w+)`; the capture is the word. -/
def pFromWord : MatchFn Chars := fun _ cs =>
  match matchLit "from".toList cs with
  | none => none
  | some r1 =>
    match matchPlus isPySpace r1 with
    | none => none
    | some r2 =>
      let w := r2.takeWhile isWordChar
      if w.isEmpty then none else some (w, r2.drop w.length)

/-- Sender pattern 3, `sender:?\s*EMAIL`; the capture is the e-mail. -/
def pSenderEmail : MatchFn Chars := fun _ cs =>
  match matchLit "sender".toList cs with
  | none => none
  | some r1 =>
    let r2 := match r1 with | ':' :: t => t | _ => r1
    pEmail (r2.dropWhile isPySpace)

/-- The escaped-literal sub pattern `from\s+<match>` used to strip a bare
sender name from the query. -/
def pFromLit (w : Chars) : MatchFn Unit := fun _ cs =>
  match matchLit "from".toList cs with
  | none => none
  | some r1 =>
    match matchPlus isPySpace r1 with
    | none => none
    | some r2 => (matchLit w r2).map (fun rest => ((), rest))

/-- Match `\b<w>\b` for a word `w` made of word characters. -/
def pWordLit (w : Chars) : MatchFn Unit := fun prev cs =>
  if wordB prev then none else
  match matchLit w cs with
  | none => none
  | some rest => if wordB rest.head? then none else some ((), rest)

/-- Match `\b<w1>\s+<w2>\b` (the two-word relative-date phrases). -/
def pTwoWords (w1 w2 : Chars) : MatchFn Unit := fun prev cs =>
  if wordB prev then none else
  match matchLit w1 cs with
  | none => none
  | some r1 =>
    match matchPlus isPySpace r1 with
    | none => none
    | some r2 =>
      match matchLit w2 r2 with
      | none => none
      | some rest => if wordB rest.head? then none else some ((), rest)

/-- Match `\b(about|regarding|re:|fw:)\b`, the connector-word pattern.
The trailing `\b` after `re:`/`fw:` requires the next character to be a
word character (the colon is a non-word character). -/
def pConnector : MatchFn Unit := fun prev cs =>
  if wordB prev then none else
  ["about", "regarding", "re:", "fw:"].findSome? (fun w =>
    match matchLit w.toList cs with
    | none => none
    | some rest =>
      if wordB w.toList.getLast? == wordB rest.head? then none
      else some ((), rest))

/-! Calendar arithmetic for the date filters.  Timestamps are seconds
since the Unix epoch (UTC).  The civil-calendar conversions implement the
standard era-based algorithms; they are used only to compute the values
the Python code obtains from `datetime`. -/

/-- Days-from-civil-date (proleptic Gregorian). -/
def daysFromCivil (y m d : Int) : Int :=
  let y2 := if m ≤ 2 then y - 1 else y
  let era := (if 0 ≤ y2 then y2 else y2 - 399).fdiv 400
  let yoe := y2 - era * 400
  let mp := if 2 < m then m - 3 else m + 9
  let doy := (153 * mp + 2).fdiv 5 + d - 1
  let doe := yoe * 365 + yoe.fdiv 4 - yoe.fdiv 100 + doy
  era * 146097 + doe - 719468

/-- Day of the month of an epoch-day number. -/
def dayOfMonthFromDays (z : Int) : Int :=
  let z2 := z + 719468
  let era := (if 0 ≤ z2 then z2 else z2 - 146096).fdiv 146097
  let doe := z2 - era * 146097
  let yoe := (doe - doe.fdiv 1460 + doe.fdiv 36524 - doe.fdiv 146096).fdiv 365
  let doy := doe - (365 * yoe + yoe.fdiv 4 - yoe.fdiv 100)
  let mp := (5 * doy + 2).fdiv 153
  doy - (153 * mp + 2).fdiv 5 + 1

/-- Midnight of the day containing `t`
(`replace(hour=0, minute=0, second=0, microsecond=0)`). -/
def floorDay (t : Int) : Int := t - t.emod 86400

/-- Python `datetime.weekday()`: Monday is 0.  1970-01-01 was a Thursday. -/
def weekdayOf (t : Int) : Int := ((t.fdiv 86400) + 3).emod 7

/-- Day of month of the timestamp `t`. -/
def dayOfMonthOf (t : Int) : Int := dayOfMonthFromDays (t.fdiv 86400)

/-- The relative-date phrases of the parser's `date_patterns` table,
in the order the (insertion-ordered) Python dict iterates them. -/
inductive RelDate
  | today | yesterday | lastWeek | thisWeek | lastMonth | thisMonth | lastYear
deriving DecidableEq

def relOrder : List RelDate :=
  [.today, .yesterday, .lastWeek, .thisWeek, .lastMonth, .thisMonth, .lastYear]

/-- The compiled pattern of each relative-date phrase. -/
def relMatcher : RelDate → MatchFn Unit
  | .today => pWordLit "today".toList
  | .yesterday => pWordLit "yesterday".toList
  | .lastWeek => pTwoWords "last".toList "week".toList
  | .thisWeek => pTwoWords "this".toList "week".toList
  | .lastMonth => pTwoWords "last".toList "month".toList
  | .thisMonth => pTwoWords "this".toList "month".toList
  | .lastYear => pTwoWords "last".toList "year".toList

/-- The `(date_from, date_to)` pair of each relative-date phrase, computed
from the current instant `now` exactly as the `date_patterns` table does
(at one-second granularity). -/
def relRange (now : Int) : RelDate → Int × Int
  | .today => (floorDay now, now)
  | .yesterday => (floorDay (now - 86400), floorDay (now - 86400) + 86399)
  | .lastWeek => (now - 7 * 86400, now)
  | .thisWeek => (now - 86400 * weekdayOf now, now)
  | .lastMonth => (now - 30 * 86400, now)
  | .thisMonth => (now - 86400 * (dayOfMonthOf now - 1), now)
  | .lastYear => (now - 365 * 86400, now)

/-- Scan the relative-date table in order; the first pattern that occurs
in the query wins (`break`), and all its occurrences are stripped. -/
def findRelDate (q : Chars) : Option (RelDate × Chars) :=
  relOrder.findSome? (fun rd =>
    if (reSearch (relMatcher rd) q).isSome then some (rd, reSub (relMatcher rd) q)
    else none)

/-- The month-name table of `_parse_query`. -/
def monthTable : List (String × Nat) :=
  [("january", 1), ("february", 2), ("march", 3), ("april", 4),
   ("may", 5), ("june", 6), ("july", 7), ("august", 8),
   ("september", 9), ("october", 10), ("november", 11), ("december", 12)]

def digitsVal (ds : Chars) : Nat :=
  ds.foldl (fun a c => a * 10 + (c.toNat - '0'.toNat)) 0

/-- Match `\b(january|...|december)\s+(\d{4})\b`, capturing the month
number, the year, and the whole matched text (`group(0)`, later removed
from the query as a literal). -/
def pMonthYear : MatchFn (Nat × Nat × Chars) := fun prev cs =>
  if wordB prev then none else
  monthTable.findSome? (fun nmn =>
    match matchLit nmn.1.toList cs with
    | none => none
    | some r1 =>
      match matchPlus isPySpace r1 with
      | none => none
      | some r2 =>
        let ds := r2.takeWhile Char.isDigit
        if ds.length == 4 && !(wordB (r2.drop 4).head?) then
          some ((nmn.2, digitsVal ds,
                 nmn.1.toList ++ r1.take (r1.length - r2.length) ++ ds), r2.drop 4)
        else none)

/-- The `(date_from, date_to)` pair of a `<month> <year>` phrase:
first of the month to first of the following month (exclusive). -/
def monthRange (mn yr : Nat) : Int × Int :=
  (86400 * daysFromCivil (yr : Int) (mn : Int) 1,
   if mn = 12 then 86400 * daysFromCivil ((yr : Int) + 1) 1 1
   else 86400 * daysFromCivil (yr : Int) ((mn : Int) + 1) 1)

/-! The parser's output types, mirroring the Python dataclasses. -/

inductive SearchType
  | semantic | keyword | hybrid | filtered
deriving DecidableEq

/-- The `.value` string of the `SearchType` enum. -/
def SearchType.str : SearchType → String
  | .semantic => "semantic"
  | .keyword => "keyword"
  | .hybrid => "hybrid"
  | .filtered => "filtered"

/-- `state.search_type in [SearchType.SEMANTIC, SearchType.HYBRID,
SearchType.FILTERED]`, the guard of the vector-generation stage. -/
def searchTypeIn (t : SearchType) : Bool :=
  t == .semantic || t == .hybrid || t == .filtered

structure SearchFilters where
  sender_emails : List String := []
  date_from : Option Int := none
  date_to : Option Int := none
  labels : List String := []
  has_attachments : Option Bool := none
  is_important : Option Bool := none
  keywords : List String := []
deriving DecidableEq

structure ParseOutput where
  filters : SearchFilters
  cleaned_query : String
  search_type : SearchType
deriving DecidableEq

/-! The extraction passes of `_parse_query`. -/

/-- One sender pattern: `findall` on the current query, then for each
captured match either record an e-mail (and strip all pattern matches) or
record a bare name as keyword (and strip `from\s+<name>`).  The state is
`(query, sender_emails, keywords)`. -/
def senderStep (pat : MatchFn Chars) (st : Chars × List Chars × List Chars) :
    Chars × List Chars × List Chars :=
  (reFindall pat st.1).foldl (fun acc m =>
    if m.contains '@' then (reSub pat acc.1, acc.2.1 ++ [m], acc.2.2)
    else (reSub (pFromLit m) acc.1, acc.2.1, acc.2.2 ++ [m])) st

/-- The three sender patterns applied in source order. -/
def senderPass (q : Chars) : Chars × List Chars × List Chars :=
  senderStep pSenderEmail (senderStep pFromWord (senderStep pFromEmail (q, [], [])))

/-- The relative-date pass: the first matching pattern sets the date
range (computed from `now`) and is stripped from the query. -/
def datePass (now : Int) (q : Chars) : Chars × Option (Int × Int) :=
  match findRelDate q with
  | some rdq => (rdq.2, some (relRange now rdq.1))
  | none => (q, none)

/-- The label table `(pattern, label)` of `_parse_query`. -/
def labelTable : List (String × String) :=
  [("inbox", "INBOX"), ("sent", "SENT"), ("draft", "DRAFT"),
   ("spam", "SPAM"), ("trash", "TRASH")]

/-- The label pass: each `\b<word>\b` pattern found records its canonical
label and is stripped from the query. -/
def labelsPass (q : Chars) : Chars × List String :=
  labelTable.foldl (fun acc wl =>
    if (reSearch (pWordLit wl.1.toList) acc.1).isSome then
      (reSub (pWordLit wl.1.toList) acc.1, acc.2 ++ [wl.2])
    else acc) (q, [])

/-- Collapse whitespace runs to single spaces (`re.sub(r'\s+', ' ', q)`). -/
def collapseGo (prevSp : Bool) : Chars → Chars
  | [] => []
  | c :: cs =>
    if isPySpace c then
      if prevSp then collapseGo true cs else ' ' :: collapseGo true cs
    else c :: collapseGo false cs

def collapseSpaces (cs : Chars) : Chars := collapseGo false cs

/-- Python `str.split()`: split on whitespace runs, no empty tokens. -/
def splitWsGo : Chars → Chars → List Chars
  | acc, [] => if acc.isEmpty then [] else [acc.reverse]
  | acc, c :: cs =>
    if isPySpace c then
      if acc.isEmpty then splitWsGo [] cs else acc.reverse :: splitWsGo [] cs
    else splitWsGo (c :: acc) cs

def splitWs (cs : Chars) : List Chars := splitWsGo [] cs

/-- `' '.join(keywords)`. -/
def joinSpaces (ws : List Chars) : Chars := List.intercalate [' '] ws

/-- Lowercase and strip the raw query, the first line of `_parse_query`. -/
def normalizeQuery (raw : String) : Chars :=
  pyStrip (raw.toList.map Char.toLower)

/-- The tail of `_parse_query` after the sender and relative-date passes:
month/year extraction, flag extraction, labels, cleanup, residual
keywords, and the search-type decision.  `sp` is the sender-pass state,
`dp` the relative-date-pass state. -/
def parseRest (sp : Chars × List Chars × List Chars)
    (dp : Chars × Option (Int × Int)) : ParseOutput :=
  let mres := reSearch pMonthYear dp.1
  let q3 := match mres with
    | some myt => removeAll myt.2.2 dp.1
    | none => dp.1
  let dates := match mres with
    | some myt => some (monthRange myt.1 myt.2.1)
    | none => dp.2
  let impHit := containsSub "important".toList q3
  let q4 := if impHit then removeAll "important".toList q3 else q3
  let imp : Option Bool := if impHit then some true else none
  let attHit := containsSub "attachment".toList q4
  let q5 := if attHit then removeAll "attachments".toList (removeAll "attachment".toList q4)
            else q4
  let att : Option Bool := if attHit then some true else none
  let lp := labelsPass q5
  let q7 := pyStrip (collapseSpaces lp.1)
  let q8 := pyStrip (reSub pConnector q7)
  let resid := if q8.isEmpty then [] else (splitWs q8).filter (fun w => 2 < w.length)
  let kws := sp.2.2 ++ resid
  let cleaned := if kws.isEmpty then q8 else joinSpaces kws
  let filters : SearchFilters :=
    { sender_emails := sp.2.1.map String.mk
      date_from := dates.map Prod.fst
      date_to := dates.map Prod.snd
      labels := lp.2
      has_attachments := att
      is_important := imp
      keywords := kws.map String.mk }
  let cq := String.mk cleaned
  -- `if state.cleaned_query and len(state.cleaned_query) > 3` is
  -- equivalent to the length test alone.
  let st :=
    if 3 < cq.length then
      if !filters.sender_emails.isEmpty || filters.date_from.isSome
          || !filters.labels.isEmpty then SearchType.filtered
      else SearchType.hybrid
    else SearchType.keyword
  { filters := filters, cleaned_query := cq, search_type := st }

/-- The full `_parse_query` as a function of the raw query string and the
current instant `now` (the `datetime.now(timezone.utc)` the code reads).
The clock enters only through the relative-date pass. -/
def parseQuery (raw : String) (now : Int) : ParseOutput :=
  let sp := senderPass (normalizeQuery raw)
  parseRest sp (datePass now sp.1)

/-! Data model of the retrieval stages. -/

/-- One row of the `email_messages` table as selected by
`_keyword_search`; nullable columns are `Option`s. -/
structure EmailRow where
  account_id : Int
  id : Int
  external_message_id : String
  subject : Option String
  snippet : Option String
  sender_email : String
  sender_name : Option String
  date_sent : Int
  labels : Option (List String)
  has_attachments : Option Bool
deriving DecidableEq

/-- The `SearchResult` dataclass. -/
structure SearchResult where
  message_id : Int
  external_message_id : String
  subject : String
  snippet : String
  sender_email : String
  sender_name : String
  date_sent : Int
  relevance_score : ℚ
  search_type : String
  labels : List String
  has_attachments : Bool
deriving DecidableEq

/-- A hit returned by the Qdrant service (already joined to message
metadata); `date_sent` is `none` when the stored ISO date is missing. -/
structure VectorHit where
  message_id : Int
  external_message_id : String
  subject : String
  snippet : String
  sender_email : String
  date_sent : Option Int
  score : ℚ
deriving DecidableEq

/-- Stable insertion into a list sorted descending by `key`: the new
element goes after every earlier element with a key at least as large. -/
def insertDescBy [LinearOrder β] (key : α → β) (x : α) : List α → List α
  | [] => [x]
  | y :: ys => if key y ≤ key x then x :: y :: ys else y :: insertDescBy key x ys

/-- Stable descending sort by `key` (Python `sorted(..., reverse=True)`
is stable; equal keys keep their input order). -/
def sortDescBy [LinearOrder β] (key : α → β) : List α → List α
  | [] => []
  | x :: xs => insertDescBy key x (sortDescBy key xs)

/-- SQL `LIKE` pattern matching (`%` and `_` wildcards). -/
def likeMatch : Chars → Chars → Bool
  | [], t => t.isEmpty
  | '%' :: ps, [] => likeMatch ps []
  | '%' :: ps, c :: ts => likeMatch ps (c :: ts) || likeMatch ('%' :: ps) ts
  | '_' :: _, [] => false
  | '_' :: ps, _ :: ts => likeMatch ps ts
  | _ :: _, [] => false
  | p :: ps, c :: ts => p == c && likeMatch ps ts
termination_by p t => (p.length, t.length)

/-- The interpolated parameter `f'%{term.lower()}%'`. -/
def likePat (term : String) : Chars := '%' :: (lowerStr term).toList ++ ['%']

/-- `LOWER(col) LIKE pat` on a nullable column: NULL compares to NULL,
which is not true. -/
def sqlLike (v : Option String) (pat : Chars) : Bool :=
  match v with
  | none => false
  | some s => likeMatch pat (lowerStr s).toList

/-- The SQL query built by `_keyword_search`: account scoping, the
disjunction of per-term subject/snippet `LIKE` conditions (present only
when there are terms), `ORDER BY date_sent DESC`, `LIMIT cap`. -/
def sqlKeywordQuery (db : List EmailRow) (accountId : Int) (terms : List String)
    (cap : Nat) : List EmailRow :=
  let cond := fun (r : EmailRow) =>
    r.account_id == accountId &&
      (terms.isEmpty ||
        terms.any (fun t => sqlLike r.subject (likePat t) || sqlLike r.snippet (likePat t)))
  (sortDescBy (fun r : EmailRow => r.date_sent) (db.filter cond)).take cap

/-- The `_calculate_keyword_score` relevance function: subject hits weigh
2.0, snippet hits 1.0, total divided by the number of terms. -/
def calcKeywordScore (subject snippet : Option String) (terms : List String) : ℚ :=
  if terms.isEmpty then 0 else
  (terms.foldl (fun s t =>
      let tl := (lowerStr t).toList
      let s1 := if containsSub tl (lowerStr (subject.getD "")).toList then s + 2 else s
      if containsSub tl (lowerStr (snippet.getD "")).toList then s1 + 1 else s1)
    (0 : ℚ)) / (terms.length : ℚ)

/-- Conversion of a database row to a `SearchResult` (the `row[i] or ...`
defaults of the Python loop). -/
def rowToResult (terms : List String) (r : EmailRow) : SearchResult :=
  { message_id := r.id
    external_message_id := r.external_message_id
    subject := r.subject.getD ""
    snippet := r.snippet.getD ""
    sender_email := r.sender_email
    sender_name := r.sender_name.getD ""
    date_sent := r.date_sent
    relevance_score := calcKeywordScore r.subject r.snippet terms
    search_type := "keyword"
    labels := r.labels.getD []
    has_attachments := r.has_attachments.getD false }

/-- The `_keyword_search` stage.  The SQL block runs only when the
cleaned query or the keyword list is non-empty (Python truthiness of
`state.cleaned_query or state.filters.keywords`); the results are then
re-sorted descending by relevance score. -/
def keywordSearch (db : List EmailRow) (accountId : Int) (cleaned : String)
    (kws : List String) (cap : Nat) : List SearchResult :=
  if !cleaned.isEmpty || !kws.isEmpty then
    let terms := if kws.isEmpty then [cleaned] else kws
    sortDescBy (fun r : SearchResult => r.relevance_score)
      ((sqlKeywordQuery db accountId terms cap).map (rowToResult terms))
  else []

/-- Conversion of a Qdrant hit to a `SearchResult` in `_semantic_search`
(`date_sent` falls back to the current instant when missing). -/
def hitToResult (now : Int) (h : VectorHit) : SearchResult :=
  { message_id := h.message_id
    external_message_id := h.external_message_id
    subject := h.subject
    snippet := h.snippet
    sender_email := h.sender_email
    sender_name := ""
    date_sent := h.date_sent.getD now
    relevance_score := h.score
    search_type := "semantic"
    labels := []
    has_attachments := false }

/-! The fusion engine `_fuse_results`.  The Python `combined_results`
dict (insertion-ordered, keyed by message id) is an association list
updated in place. -/

def alookup (k : Int) : List (Int × SearchResult) → Option SearchResult
  | [] => none
  | p :: rest => if p.1 = k then some p.2 else alookup k rest

def aupdate (k : Int) (v : SearchResult) :
    List (Int × SearchResult) → List (Int × SearchResult)
  | [] => []
  | p :: rest => if p.1 = k then (p.1, v) :: rest else p :: aupdate k v rest

/-- Set the provenance tag of a result. -/
def setType (t : String) (r : SearchResult) : SearchResult :=
  { r with search_type := t }

/-- Insert one keyword result: new ids are appended with tag `keyword`;
an id already present keeps the larger score and is retagged `hybrid`. -/
def fuseStep1 (acc : List (Int × SearchResult)) (r : SearchResult) :
    List (Int × SearchResult) :=
  match alookup r.message_id acc with
  | none => acc ++ [(r.message_id, setType "keyword" r)]
  | some old =>
    aupdate r.message_id
      { old with relevance_score := max old.relevance_score r.relevance_score,
                 search_type := "hybrid" } acc

/-- Insert one semantic result: new ids are appended with tag `semantic`;
an id already present gets the weighted blend
`semantic * 0.6 + keyword * 0.4` and the tag `hybrid`. -/
def fuseStep2 (acc : List (Int × SearchResult)) (r : SearchResult) :
    List (Int × SearchResult) :=
  match alookup r.message_id acc with
  | none => acc ++ [(r.message_id, setType "semantic" r)]
  | some old =>
    aupdate r.message_id
      { old with relevance_score := r.relevance_score * 0.6 + old.relevance_score * 0.4,
                 search_type := "hybrid" } acc

/-- The combined dict after both insertion loops. -/
def fuseMap (kw sem : List SearchResult) : List (Int × SearchResult) :=
  sem.foldl fuseStep2 (kw.foldl fuseStep1 [])

/-- The fused list before truncation: dict values sorted descending by
relevance (Python's stable sort). -/
def fusedAll (kw sem : List SearchResult) : List SearchResult :=
  sortDescBy (fun r : SearchResult => r.relevance_score) ((fuseMap kw sem).map Prod.snd)

/-- The full `_fuse_results` output: sorted and truncated to
`max_results`. -/
def fuseResults (kw sem : List SearchResult) (cap : Nat) : List SearchResult :=
  (fusedAll kw sem).take cap

/-! The post-filter `_apply_filters`: a result survives the loop iff it
passes every `continue` check, in source order. -/

def passSender (f : SearchFilters) (r : SearchResult) : Bool :=
  f.sender_emails.isEmpty ||
    f.sender_emails.any (fun s => containsSub s.toList (lowerStr r.sender_email).toList)

def passDateFrom (f : SearchFilters) (r : SearchResult) : Bool :=
  match f.date_from with
  | none => true
  | some d => !decide (r.date_sent < d)

def passDateTo (f : SearchFilters) (r : SearchResult) : Bool :=
  match f.date_to with
  | none => true
  | some d => !decide (d < r.date_sent)

def passImportant (f : SearchFilters) (r : SearchResult) : Bool :=
  match f.is_important with
  | none => true
  | some b => r.labels.contains "IMPORTANT" == b

def passAttach (f : SearchFilters) (r : SearchResult) : Bool :=
  match f.has_attachments with
  | none => true
  | some b => b == r.has_attachments

def passLabels (f : SearchFilters) (r : SearchResult) : Bool :=
  f.labels.isEmpty || f.labels.any (fun l => r.labels.contains l)

def survives (f : SearchFilters) (r : SearchResult) : Bool :=
  passSender f r && passDateFrom f r && passDateTo f r &&
    passImportant f r && passAttach f r && passLabels f r

/-- The filtering loop of `_apply_filters`. -/
def applyFilters (f : SearchFilters) : List SearchResult → List SearchResult
  | [] => []
  | r :: rs => if survives f r then r :: applyFilters f rs else applyFilters f rs

/-! The orchestrator `search_emails`. -/

/-- Python `round(x, 3)` (round half to even), on the ideal rational
value of the score. -/
def pyRound3 (q : ℚ) : ℚ :=
  let y := q * 1000
  let fl : Int := ⌊y⌋
  let fr := y - fl
  let n : Int :=
    if fr < 1/2 then fl
    else if 1/2 < fr then fl + 1
    else if fl % 2 = 0 then fl else fl + 1
  (n : ℚ) / 1000

/-- One entry of the serialized `results` list returned by
`search_emails` (the `labels` field is not serialized; the score is
rounded to three decimals). -/
structure SerializedResult where
  message_id : Int
  external_message_id : String
  subject : String
  snippet : String
  sender_email : String
  sender_name : String
  date_sent : Int
  relevance_score : ℚ
  search_type : String
  has_attachments : Bool
deriving DecidableEq

def serializeResult (r : SearchResult) : SerializedResult :=
  { message_id := r.message_id
    external_message_id := r.external_message_id
    subject := r.subject
    snippet := r.snippet
    sender_email := r.sender_email
    sender_name := r.sender_name
    date_sent := r.date_sent
    relevance_score := pyRound3 r.relevance_score
    search_type := r.search_type
    has_attachments := r.has_attachments }

/-- The report returned by `search_emails` (`processing_time`, a
wall-clock measurement, is not modelled). -/
structure SearchReport where
  success : Bool
  query : String
  search_type : String
  total_results : Nat
  results : List SerializedResult
  statistics_keyword_matches : Nat
  statistics_semantic_matches : Nat
  statistics_final_results : Nat
  errors : List String
deriving DecidableEq

/-- The full pipeline `search_emails`.  External collaborators are
explicit inputs: `db` is the message store contents, `embedAvailable` /
`qdrantAvailable` model whether the services initialized, `embedResp` is
the embedding call's outcome and `vectorResp` the vector store's (an
`error` models the caught exception / failure result, whose message is
appended to `state.errors` exactly as in the stage's `except` handler).
The message store itself is modelled as non-failing.  The success flag
is `len(errors) == 0`. -/
def searchEmails (db : List EmailRow) (embedAvailable qdrantAvailable : Bool)
    (embedResp : Except String (List ℚ)) (vectorResp : Except String (List VectorHit))
    (query : String) (accountId : Int) (maxResults : Nat) (now : Int) : SearchReport :=
  let p := parseQuery query now
  let ev :=
    if searchTypeIn p.search_type && !p.cleaned_query.isEmpty && embedAvailable then
      match embedResp with
      | .ok v => (v, ([] : List String))
      | .error e => ([], ["Failed to generate vector: " ++ e])
    else ([], [])
  let kwRes := keywordSearch db accountId p.cleaned_query p.filters.keywords maxResults
  let sv :=
    if !ev.1.isEmpty && qdrantAvailable then
      match vectorResp with
      | .ok hits => (hits.map (hitToResult now), ([] : List String))
      | .error e => ([], ["Semantic search failed: " ++ e])
    else ([], [])
  let final := applyFilters p.filters (fuseResults kwRes sv.1 maxResults)
  let errs := ev.2 ++ sv.2
  { success := errs.isEmpty
    query := query
    search_type := p.search_type.str
    total_results := final.length
    results := final.map serializeResult
    statistics_keyword_matches := kwRes.length
    statistics_semantic_matches := sv.1.length
    statistics_final_results := final.length
    errors := errs }

/-! Helper lemmas. -/

theorem applyFilters_eq_filter (f : SearchFilters) (l : List SearchResult) :
    applyFilters f l = l.filter (fun r => survives f r) := by
  induction l with
  | nil => rfl
  | cons r rs ih =>
    by_cases h : survives f r = true
    · simp [applyFilters, h, List.filter_cons, ih]
    · simp [applyFilters, h, List.filter_cons, ih]

theorem insertDescBy_perm [LinearOrder β] (key : α → β) (x : α) (l : List α) :
    List.Perm (insertDescBy key x l) (x :: l) := by
  induction l with
  | nil => exact List.Perm.refl _
  | cons y ys ih =>
    by_cases h : key y ≤ key x
    · simp [insertDescBy, h]
    · simp only [insertDescBy, h, if_false]
      exact (ih.cons y).trans (List.Perm.swap x y ys)

theorem sortDescBy_perm [LinearOrder β] (key : α → β) (l : List α) :
    List.Perm (sortDescBy key l) l := by
  induction l with
  | nil => exact List.Perm.refl _
  | cons x xs ih =>
    exact (insertDescBy_perm key x (sortDescBy key xs)).trans (ih.cons x)

/-! Claim theorems. -/

/-- Claim C3: the fused (pre-filter) list produced by the fusion engine
has length at most `max_results`, and the post-filter output is never
longer than its input, for all keyword/semantic result lists, filters,
and caps. -/
theorem fusion_cap_filter_len (kw sem : List SearchResult) (f : SearchFilters)
    (cap : Nat) :
    (fuseResults kw sem cap).length ≤ cap ∧
    (applyFilters f (fuseResults kw sem cap)).length ≤ (fuseResults kw sem cap).length := by
  constructor
  · exact List.length_take_le cap (fusedAll kw sem)
  · rw [applyFilters_eq_filter]
    exact List.length_filter_le _ _

/-- Claim C10: the post-filter stage is exactly a filter — its output is
the subsequence of its input consisting of the surviving results, in the
same order and with every field unchanged; it never reorders, rescores,
or retags. -/
theorem filter_subsequence (f : SearchFilters) (l : List SearchResult) :
    applyFilters f l = l.filter (fun r => survives f r) ∧
    List.Sublist (applyFilters f l) l := by
  refine ⟨applyFilters_eq_filter f l, ?_⟩
  rw [applyFilters_eq_filter]
  exact List.filter_sublist l

/-- The conjunction of active predicates of claim C4, amended at the
sender clause to what the code computes: the configured sender string
(as given) must occur in the lowercased sender e-mail. -/
def claimPred (f : SearchFilters) (r : SearchResult) : Bool :=
  (f.sender_emails.isEmpty ||
     f.sender_emails.any (fun s => containsSub s.toList (lowerStr r.sender_email).toList)) &&
  (match f.date_from with | none => true | some d => decide (d ≤ r.date_sent)) &&
  (match f.date_to with | none => true | some d => decide (r.date_sent ≤ d)) &&
  (match f.is_important with | none => true | some b => r.labels.contains "IMPORTANT" == b) &&
  (match f.has_attachments with | none => true | some b => r.has_attachments == b) &&
  (f.labels.isEmpty || f.labels.any (fun l => r.labels.contains l))

/-- The conjunction of active predicates exactly as claim C4 words them:
the sender clause is a case-insensitive substring test, lowering both the
configured sender string and the result's e-mail. -/
def claimPredCI (f : SearchFilters) (r : SearchResult) : Bool :=
  (f.sender_emails.isEmpty ||
     f.sender_emails.any (fun s =>
       containsSub (lowerStr s).toList (lowerStr r.sender_email).toList)) &&
  (match f.date_from with | none => true | some d => decide (d ≤ r.date_sent)) &&
  (match f.date_to with | none => true | some d => decide (r.date_sent ≤ d)) &&
  (match f.is_important with | none => true | some b => r.labels.contains "IMPORTANT" == b) &&
  (match f.has_attachments with | none => true | some b => r.has_attachments == b) &&
  (f.labels.isEmpty || f.labels.any (fun l => r.labels.contains l))

theorem survives_eq_claimPred (f : SearchFilters) (r : SearchResult) :
    survives f r = claimPred f r := by
  have hB : passDateFrom f r
      = (match f.date_from with | none => true | some d => decide (d ≤ r.date_sent)) := by
    unfold passDateFrom
    cases f.date_from with
    | none => rfl
    | some d =>
      show (!decide (r.date_sent < d)) = decide (d ≤ r.date_sent)
      rw [← decide_not]
      exact decide_eq_decide.mpr not_lt
  have hC : passDateTo f r
      = (match f.date_to with | none => true | some d => decide (r.date_sent ≤ d)) := by
    unfold passDateTo
    cases f.date_to with
    | none => rfl
    | some d =>
      show (!decide (d < r.date_sent)) = decide (r.date_sent ≤ d)
      rw [← decide_not]
      exact decide_eq_decide.mpr not_lt
  have hE : passAttach f r
      = (match f.has_attachments with | none => true | some b => r.has_attachments == b) := by
    unfold passAttach
    cases f.has_attachments with
    | none => rfl
    | some b => cases b <;> cases hr : r.has_attachments <;> simp
  unfold survives claimPred passSender passImportant passLabels
  rw [hB, hC, hE]

/-- The filter/result pair on which the claimed case-insensitive sender
semantics disagrees with the code: the filter string `"A"` is uppercase,
so the code's one-sided lowercasing never matches. -/
def fC4 : SearchFilters := { sender_emails := ["A"] }

def rC4 : SearchResult :=
  { message_id := 1, external_message_id := "x", subject := "", snippet := "",
    sender_email := "a@b.co", sender_name := "", date_sent := 0,
    relevance_score := 1, search_type := "keyword", labels := [],
    has_attachments := false }

/-- Claim C4 as stated is false: `rC4` satisfies every predicate of the
claim (its sender e-mail contains `"A"` case-insensitively), yet the
post-filter drops it, because the code lowercases only the result's
e-mail and not the configured sender string. -/
theorem filter_iff_cex :
    claimPredCI fC4 rC4 = true ∧ rC4 ∈ [rC4] ∧ rC4 ∉ applyFilters fC4 [rC4] := by
  decide

/-- Claim C4, amended at the sender clause: a result appears in the
post-filter output iff it is in the input and satisfies every active
predicate, where the sender predicate tests the configured string as
given against the lowercased sender e-mail. -/
theorem filter_iff_amended (f : SearchFilters) (l : List SearchResult)
    (r : SearchResult) :
    r ∈ applyFilters f l ↔ (r ∈ l ∧ claimPred f r = true) := by
  rw [applyFilters_eq_filter, List.mem_filter]
  simp [survives_eq_claimPred]

/-- A sample database row (one stored message on account 1). -/
def dbRow : EmailRow :=
  { account_id := 1, id := 7, external_message_id := "m7", subject := some "Hello",
    snippet := some "World", sender_email := "x@y.co", sender_name := some "X",
    date_sent := 1000, labels := some ["INBOX"], has_attachments := some false }

/-- Modelled from the spec: the zero-keyword "most recent N" behaviour
claim C7 expects from the lexical stage — the account's messages with no
text condition, ordered by send date descending, capped.  (The code
under `src/` never executes this: its guard skips the SQL block when
there are no search terms.) -/
def mostRecentRows (db : List EmailRow) (accountId : Int) (cap : Nat) : List EmailRow :=
  (sortDescBy (fun r : EmailRow => r.date_sent)
    (db.filter (fun r => r.account_id == accountId))).take cap

/-- Claim C7 as stated is false: on a store holding one message for the
account, the zero-keyword lexical stage returns the empty list, while
the claimed "most recent messages" behaviour would return that message. -/
theorem keyword_empty_cex :
    keywordSearch [dbRow] 1 "" [] 20 = [] ∧ mostRecentRows [dbRow] 1 20 ≠ [] := by
  decide

/-- Claim C7, amended: when the parser produced no keywords and an empty
cleaned query, the lexical stage skips the store query entirely and
returns the empty list (not the most recent messages). -/
theorem keyword_empty_amended (db : List EmailRow) (accountId : Int) (cap : Nat) :
    keywordSearch db accountId "" [] cap = [] := rfl

/-! Association-list lemmas for the fusion dict. -/

theorem alookup_eq_none (k : Int) (m : List (Int × SearchResult)) :
    alookup k m = none ↔ k ∉ m.map Prod.fst := by
  induction m with
  | nil => simp [alookup]
  | cons p rest ih =>
    by_cases h : p.1 = k
    · simp [alookup, h]
    · simp [alookup, h, ih, Ne.symm h]

theorem alookup_append (k : Int) (xs ys : List (Int × SearchResult)) :
    alookup k (xs ++ ys)
      = match alookup k xs with
        | some v => some v
        | none => alookup k ys := by
  induction xs with
  | nil => simp [alookup]
  | cons p rest ih =>
    by_cases h : p.1 = k
    · simp [alookup, h]
    · simp [alookup, h, ih]

theorem alookup_of_mem_nodup (m : List (Int × SearchResult)) (k : Int)
    (v : SearchResult) (hnd : (m.map Prod.fst).Nodup) (hm : (k, v) ∈ m) :
    alookup k m = some v := by
  induction m with
  | nil => cases hm
  | cons p rest ih =>
    rcases List.mem_cons.mp hm with h | h
    · simp [alookup, ← h]
    · have hk : k ∈ rest.map Prod.fst := List.mem_map.mpr ⟨(k, v), h, rfl⟩
      have hne : p.1 ≠ k := by
        intro hc
        exact (List.nodup_cons.mp (by simpa using hnd)).1 (hc ▸ hk)
      simp only [alookup, hne, if_false]
      exact ih (List.nodup_cons.mp (by simpa using hnd)).2 h

theorem aupdate_keys (k : Int) (v : SearchResult) (m : List (Int × SearchResult)) :
    (aupdate k v m).map Prod.fst = m.map Prod.fst := by
  induction m with
  | nil => rfl
  | cons p rest ih =>
    by_cases h : p.1 = k
    · simp [aupdate, h]
    · simp [aupdate, h, ih]

theorem mem_of_alookup (m : List (Int × SearchResult)) (k : Int) (v : SearchResult)
    (hl : alookup k m = some v) : (k, v) ∈ m := by
  induction m with
  | nil => cases hl
  | cons p rest ih =>
    by_cases hp : p.1 = k
    · simp only [alookup, hp, if_true, Option.some.injEq] at hl
      exact List.mem_cons.mpr (Or.inl (by rw [← hp, ← hl]))
    · simp only [alookup, hp, if_false] at hl
      exact List.mem_cons.mpr (Or.inr (ih hl))

theorem mem_aupdate_of_ne (k k' : Int) (v v' : SearchResult)
    (m : List (Int × SearchResult)) (hm : (k', v') ∈ m) (hne : k' ≠ k) :
    (k', v') ∈ aupdate k v m := by
  induction m with
  | nil => cases hm
  | cons p rest ih =>
    rcases List.mem_cons.mp hm with h | h
    · subst h
      simp [aupdate, hne]
    · by_cases hp : p.1 = k
      · simp [aupdate, hp, List.mem_cons, h]
      · simp [aupdate, hp, List.mem_cons, ih h]

theorem mem_aupdate_self (k : Int) (v : SearchResult)
    (m : List (Int × SearchResult)) (hk : k ∈ m.map Prod.fst) :
    (k, v) ∈ aupdate k v m := by
  induction m with
  | nil => simp at hk
  | cons p rest ih =>
    by_cases hp : p.1 = k
    · simp [aupdate, hp]
    · have : k ∈ rest.map Prod.fst := by
        rcases List.mem_map.mp hk with ⟨q, hq, hq2⟩
        rcases List.mem_cons.mp hq with h | h
        · exact absurd (h ▸ hq2) hp
        · exact List.mem_map.mpr ⟨q, h, hq2⟩
      simp [aupdate, hp, List.mem_cons, ih this]

theorem mem_of_mem_aupdate (k : Int) (v : SearchResult)
    (m : List (Int × SearchResult)) (p : Int × SearchResult)
    (hp : p ∈ aupdate k v m) : p ∈ m ∨ p = (k, v) := by
  induction m with
  | nil => cases hp
  | cons q rest ih =>
    by_cases hq : q.1 = k
    · simp only [aupdate, hq, if_true] at hp
      rcases List.mem_cons.mp hp with h | h
      · right; exact h
      · left; exact List.mem_cons.mpr (Or.inr h)
    · simp only [aupdate, hq, if_false] at hp
      rcases List.mem_cons.mp hp with h | h
      · left; exact List.mem_cons.mpr (Or.inl h)
      · rcases ih h with h2 | h2
        · left; exact List.mem_cons.mpr (Or.inr h2)
        · right; exact h2

/-- Well-formedness of the fusion dict: keys are distinct and each
value's message id equals its key. -/
def WFm (m : List (Int × SearchResult)) : Prop :=
  (m.map Prod.fst).Nodup ∧ ∀ p ∈ m, p.2.message_id = p.1

theorem wfm_nil : WFm [] := ⟨List.nodup_nil, by intro p hp; cases hp⟩

theorem wfm_append_new (m : List (Int × SearchResult)) (k : Int) (v : SearchResult)
    (hwf : WFm m) (hk : k ∉ m.map Prod.fst) (hv : v.message_id = k) :
    WFm (m ++ [(k, v)]) := by
  constructor
  · rw [List.map_append]
    simp only [List.map_cons, List.map_nil]
    exact List.Nodup.append hwf.1 (List.nodup_singleton k)
      (by intro a ha hb; simp at hb; exact hk (hb ▸ ha))
  · intro p hp
    rcases List.mem_append.mp hp with h | h
    · exact hwf.2 p h
    · simp at h
      rw [h]
      exact hv

theorem wfm_aupdate (m : List (Int × SearchResult)) (k : Int) (v : SearchResult)
    (hwf : WFm m) (hv : v.message_id = k) : WFm (aupdate k v m) := by
  constructor
  · rw [aupdate_keys]; exact hwf.1
  · intro p hp
    rcases mem_of_mem_aupdate k v m p hp with h | h
    · exact hwf.2 p h
    · rw [h]; exact hv

theorem wfm_fuseStep1 (m : List (Int × SearchResult)) (r : SearchResult)
    (hwf : WFm m) : WFm (fuseStep1 m r) := by
  unfold fuseStep1
  cases hl : alookup r.message_id m with
  | none =>
    exact wfm_append_new m r.message_id (setType "keyword" r) hwf
      ((alookup_eq_none _ _).mp hl) rfl
  | some old =>
    apply wfm_aupdate m r.message_id _ hwf
    exact hwf.2 (r.message_id, old) (mem_of_alookup m r.message_id old hl)

theorem wfm_fuseStep2 (m : List (Int × SearchResult)) (r : SearchResult)
    (hwf : WFm m) : WFm (fuseStep2 m r) := by
  unfold fuseStep2
  cases hl : alookup r.message_id m with
  | none =>
    exact wfm_append_new m r.message_id (setType "semantic" r) hwf
      ((alookup_eq_none _ _).mp hl) rfl
  | some old =>
    apply wfm_aupdate m r.message_id _ hwf
    exact hwf.2 (r.message_id, old) (mem_of_alookup m r.message_id old hl)

theorem wfm_foldl1 (kw : List SearchResult) :
    ∀ m, WFm m → WFm (kw.foldl fuseStep1 m) := by
  induction kw with
  | nil => intro m h; exact h
  | cons r rs ih =>
    intro m h
    exact ih (fuseStep1 m r) (wfm_fuseStep1 m r h)

theorem wfm_foldl2 (sem : List SearchResult) :
    ∀ m, WFm m → WFm (sem.foldl fuseStep2 m) := by
  induction sem with
  | nil => intro m h; exact h
  | cons r rs ih =>
    intro m h
    exact ih (fuseStep2 m r) (wfm_fuseStep2 m r h)

theorem wfm_fuseMap (kw sem : List SearchResult) : WFm (fuseMap kw sem) :=
  wfm_foldl2 sem _ (wfm_foldl1 kw [] wfm_nil)

theorem fusedAll_ids_nodup (kw sem : List SearchResult) :
    ((fusedAll kw sem).map (fun r => r.message_id)).Nodup := by
  have hwf := wfm_fuseMap kw sem
  have hvals : ((fuseMap kw sem).map Prod.snd).map (fun r => r.message_id)
      = (fuseMap kw sem).map Prod.fst := by
    rw [List.map_map]
    exact List.map_congr_left (fun p hp => hwf.2 p hp)
  have hperm : List.Perm ((fusedAll kw sem).map (fun r => r.message_id))
      (((fuseMap kw sem).map Prod.snd).map (fun r => r.message_id)) :=
    (sortDescBy_perm _ _).map _
  rw [hperm.nodup_iff, hvals]
  exact hwf.1

/-- Claim C2: after fusion no message id appears twice — the fused list's
ids are pairwise distinct, for all inputs (including inputs that contain
duplicate ids or overlap). -/
theorem fusion_nodup (kw sem : List SearchResult) (cap : Nat) :
    ((fuseResults kw sem cap).map (fun r => r.message_id)).Nodup := by
  unfold fuseResults
  rw [List.map_take]
  exact (fusedAll_ids_nodup kw sem).sublist (List.take_sublist _ _)

/-! Characterization of the two fusion insertion loops. -/

theorem nodup_ids_cons (r : SearchResult) (rs : List SearchResult)
    (h : ((r :: rs).map (fun x => x.message_id)).Nodup) :
    r.message_id ∉ rs.map (fun x => x.message_id) ∧
      (rs.map (fun x => x.message_id)).Nodup := by
  rw [List.map_cons] at h
  exact List.nodup_cons.mp h

theorem foldl_fuseStep1_eq (kw : List SearchResult) :
    ∀ acc : List (Int × SearchResult),
      (kw.map (fun r => r.message_id)).Nodup →
      (∀ r ∈ kw, alookup r.message_id acc = none) →
      kw.foldl fuseStep1 acc
        = acc ++ kw.map (fun r => (r.message_id, setType "keyword" r)) := by
  induction kw with
  | nil => intro acc _ _; simp
  | cons r rs ih =>
    intro acc hnd hnone
    have h0 : alookup r.message_id acc = none := hnone r (List.mem_cons_self r rs)
    have hstep : fuseStep1 acc r = acc ++ [(r.message_id, setType "keyword" r)] := by
      unfold fuseStep1
      rw [h0]
    have hnd' := nodup_ids_cons r rs hnd
    rw [List.foldl_cons, hstep,
        ih (acc ++ [(r.message_id, setType "keyword" r)]) hnd'.2 ?_]
    · simp
    · intro r' hr'
      rw [alookup_append]
      have hne : r.message_id ≠ r'.message_id := by
        intro hc
        exact hnd'.1 (hc ▸ List.mem_map.mpr ⟨r', hr', rfl⟩)
      rw [hnone r' (List.mem_cons.mpr (Or.inr hr'))]
      simp [alookup, hne]

theorem foldl_fuseStep2_untouched (sem : List SearchResult) :
    ∀ (m : List (Int × SearchResult)) (k : Int) (v : SearchResult),
      WFm m → (k, v) ∈ m → k ∉ sem.map (fun r => r.message_id) →
      (k, v) ∈ sem.foldl fuseStep2 m := by
  induction sem with
  | nil => intro m k v _ hm _; exact hm
  | cons r rs ih =>
    intro m k v hwf hm hk
    have hne : k ≠ r.message_id := by
      intro hc
      exact hk (by simp [hc])
    have hk' : k ∉ rs.map (fun x => x.message_id) := by
      intro hc
      exact hk (by simp [hc])
    rw [List.foldl_cons]
    apply ih (fuseStep2 m r) k v (wfm_fuseStep2 m r hwf) ?_ hk'
    unfold fuseStep2
    cases hl : alookup r.message_id m with
    | none => exact List.mem_append.mpr (Or.inl hm)
    | some old => exact mem_aupdate_of_ne _ _ _ _ _ hm hne

theorem foldl_fuseStep2_blend (sem : List SearchResult) :
    ∀ (m : List (Int × SearchResult)) (k : Int) (v : SearchResult),
      WFm m → (k, v) ∈ m → (sem.map (fun r => r.message_id)).Nodup →
      ∀ rs ∈ sem, rs.message_id = k →
      (k, { v with relevance_score := rs.relevance_score * 0.6 + v.relevance_score * 0.4,
                   search_type := "hybrid" }) ∈ sem.foldl fuseStep2 m := by
  induction sem with
  | nil => intro m k v _ _ _ rs hrs; cases hrs
  | cons r rest ih =>
    intro m k v hwf hm hnd rs hrs hrk
    have hnd' := nodup_ids_cons r rest hnd
    rcases List.mem_cons.mp hrs with h | h
    · subst h
      subst hrk
      have hl : alookup rs.message_id m = some v :=
        alookup_of_mem_nodup m _ v hwf.1 hm
      have hstep : fuseStep2 m rs
          = aupdate rs.message_id
              { v with relevance_score := rs.relevance_score * 0.6 + v.relevance_score * 0.4,
                       search_type := "hybrid" } m := by
        unfold fuseStep2
        rw [hl]
      rw [List.foldl_cons, hstep]
      apply foldl_fuseStep2_untouched rest _ _ _ ?_ ?_ ?_
      · exact wfm_aupdate m rs.message_id _ hwf (hwf.2 (rs.message_id, v) hm)
      · exact mem_aupdate_self _ _ m (List.mem_map.mpr ⟨(rs.message_id, v), hm, rfl⟩)
      · exact hnd'.1
    · have hne : k ≠ r.message_id := by
        intro hc
        apply hnd'.1
        rw [← hc, ← hrk]
        exact List.mem_map.mpr ⟨rs, h, rfl⟩
      rw [List.foldl_cons]
      apply ih (fuseStep2 m r) k v (wfm_fuseStep2 m r hwf) ?_ hnd'.2 rs h hrk
      unfold fuseStep2
      cases hl : alookup r.message_id m with
      | none => exact List.mem_append.mpr (Or.inl hm)
      | some old => exact mem_aupdate_of_ne _ _ _ _ _ hm hne

theorem foldl_fuseStep2_new (sem : List SearchResult) :
    ∀ (m : List (Int × SearchResult)),
      WFm m → (sem.map (fun r => r.message_id)).Nodup →
      ∀ rs ∈ sem, rs.message_id ∉ m.map Prod.fst →
      (rs.message_id, setType "semantic" rs) ∈ sem.foldl fuseStep2 m := by
  induction sem with
  | nil => intro m _ _ rs hrs; cases hrs
  | cons r rest ih =>
    intro m hwf hnd rs hrs hk
    have hnd' := nodup_ids_cons r rest hnd
    rcases List.mem_cons.mp hrs with h | h
    · subst h
      have hl : alookup rs.message_id m = none := (alookup_eq_none _ _).mpr hk
      have hstep : fuseStep2 m rs = m ++ [(rs.message_id, setType "semantic" rs)] := by
        unfold fuseStep2
        rw [hl]
      rw [List.foldl_cons, hstep]
      apply foldl_fuseStep2_untouched rest _ _ _ ?_ ?_ hnd'.1
      · exact wfm_append_new m rs.message_id _ hwf hk rfl
      · exact List.mem_append.mpr (Or.inr (List.mem_cons_self _ _))
    · have hne : rs.message_id ≠ r.message_id := by
        intro hc
        exact hnd'.1 (hc ▸ List.mem_map.mpr ⟨rs, h, rfl⟩)
      rw [List.foldl_cons]
      apply ih (fuseStep2 m r) (wfm_fuseStep2 m r hwf) hnd'.2 rs h ?_
      unfold fuseStep2
      cases hl : alookup r.message_id m with
      | none =>
        rw [List.map_append]
        intro hc
        rcases List.mem_append.mp hc with h2 | h2
        · exact hk h2
        · simp at h2
          exact hne h2
      | some old =>
        rw [aupdate_keys]
        exact hk

theorem mem_fusedAll_of_mem_fuseMap (kw sem : List SearchResult)
    (p : Int × SearchResult) (hp : p ∈ fuseMap kw sem) :
    p.2 ∈ fusedAll kw sem := by
  unfold fusedAll
  exact ((sortDescBy_perm _ _).mem_iff).mpr (List.mem_map.mpr ⟨p, hp, rfl⟩)

theorem fuseMap_eq (kw sem : List SearchResult)
    (hk : (kw.map (fun r => r.message_id)).Nodup) :
    fuseMap kw sem
      = sem.foldl fuseStep2 (kw.map (fun r => (r.message_id, setType "keyword" r))) := by
  unfold fuseMap
  rw [foldl_fuseStep1_eq kw [] hk (fun r _ => rfl)]
  simp

theorem wfm_kwAssoc (kw : List SearchResult)
    (hk : (kw.map (fun r => r.message_id)).Nodup) :
    WFm (kw.map (fun r => (r.message_id, setType "keyword" r))) := by
  constructor
  · rw [List.map_map]
    exact hk
  · intro p hp
    rcases List.mem_map.mp hp with ⟨r, _, rfl⟩
    rfl

theorem kwAssoc_keys (kw : List SearchResult) :
    (kw.map (fun r => (r.message_id, setType "keyword" r))).map Prod.fst
      = kw.map (fun r => r.message_id) := by
  rw [List.map_map]
  rfl

/-- Claim C1, amended: the blending rule holds of the fused collection
before the final truncation to `max_results` (the truncation can drop
any entry, see the counterexample), provided each input list mentions
each message id at most once (the claim's "the keyword score `k`" / "the
semantic score `s`" presuppose this).  An id in both lists is stored
with score `s * 0.6 + k * 0.4` (the code's spelling of `0.6*s + 0.4*k`)
and tag `hybrid`; an id in only one list keeps that list's entry with
its raw score and origin tag. -/
theorem fusion_blend_amended (kw sem : List SearchResult)
    (hk : (kw.map (fun r => r.message_id)).Nodup)
    (hs : (sem.map (fun r => r.message_id)).Nodup) :
    (∀ rk ∈ kw, ∀ rs ∈ sem, rs.message_id = rk.message_id →
      { rk with relevance_score := rs.relevance_score * 0.6 + rk.relevance_score * 0.4,
                search_type := "hybrid" } ∈ fusedAll kw sem) ∧
    (∀ rk ∈ kw, rk.message_id ∉ sem.map (fun r => r.message_id) →
      setType "keyword" rk ∈ fusedAll kw sem) ∧
    (∀ rs ∈ sem, rs.message_id ∉ kw.map (fun r => r.message_id) →
      setType "semantic" rs ∈ fusedAll kw sem) := by
  have hmapeq := fuseMap_eq kw sem hk
  have hwfA := wfm_kwAssoc kw hk
  refine ⟨?_, ?_, ?_⟩
  · intro rk hrk rs hrs hid
    have hmem : (rk.message_id, setType "keyword" rk)
        ∈ kw.map (fun r => (r.message_id, setType "keyword" r)) :=
      List.mem_map.mpr ⟨rk, hrk, rfl⟩
    have h2 := foldl_fuseStep2_blend sem _ rk.message_id (setType "keyword" rk)
      hwfA hmem hs rs hrs hid
    rw [← hmapeq] at h2
    exact mem_fusedAll_of_mem_fuseMap kw sem _ h2
  · intro rk hrk hnot
    have hmem : (rk.message_id, setType "keyword" rk)
        ∈ kw.map (fun r => (r.message_id, setType "keyword" r)) :=
      List.mem_map.mpr ⟨rk, hrk, rfl⟩
    have h2 := foldl_fuseStep2_untouched sem _ rk.message_id (setType "keyword" rk)
      hwfA hmem hnot
    rw [← hmapeq] at h2
    exact mem_fusedAll_of_mem_fuseMap kw sem _ h2
  · intro rs hrs hnot
    have hnotk : rs.message_id
        ∉ (kw.map (fun r => (r.message_id, setType "keyword" r))).map Prod.fst := by
      rw [kwAssoc_keys]
      exact hnot
    have h2 := foldl_fuseStep2_new sem _ hwfA hs rs hrs hnotk
    rw [← hmapeq] at h2
    exact mem_fusedAll_of_mem_fuseMap kw sem _ h2

/-- A keyword result and a semantic result sharing message id 5. -/
def rKW : SearchResult :=
  { message_id := 5, external_message_id := "a", subject := "s", snippet := "n",
    sender_email := "e@x.co", sender_name := "", date_sent := 10,
    relevance_score := 2, search_type := "keyword", labels := [],
    has_attachments := false }

def rSEM : SearchResult :=
  { message_id := 5, external_message_id := "a", subject := "s", snippet := "n",
    sender_email := "e@x.co", sender_name := "", date_sent := 10,
    relevance_score := 1/2, search_type := "semantic", labels := [],
    has_attachments := false }

/-- Claim C1 as stated is false: message id 5 occurs in both input lists,
yet with `max_results = 0` the fused result list produced by the fusion
engine is empty, so it contains no entry for that id at all (the final
truncation can drop blended entries). -/
theorem fusion_blend_cex :
    fuseResults [rKW] [rSEM] 0 = [] ∧
    rSEM.message_id ∈ [rKW].map (fun r => r.message_id) := by
  constructor
  · rfl
  · decide

/-- Witness for the amended claim C1 at a concrete pair of
one-element result lists sharing message id 5. -/
theorem fusion_blend_witness :
    (([rKW].map (fun r => r.message_id)).Nodup ∧
      ([rSEM].map (fun r => r.message_id)).Nodup) ∧
    { rKW with
        relevance_score := rSEM.relevance_score * 0.6 + rKW.relevance_score * 0.4,
        search_type := "hybrid" } ∈ fusedAll [rKW] [rSEM] :=
  ⟨⟨by decide, by decide⟩,
   (fusion_blend_amended [rKW] [rSEM] (by decide) (by decide)).1 rKW
     (List.mem_cons_self rKW []) rSEM (List.mem_cons_self rSEM []) rfl⟩

/-! Parser claims. -/

/-- The clock enters `_parse_query` only through the relative-date
table: if no relative-date phrase occurs in the query after the sender
pass, the parse result does not depend on the current instant. -/
theorem parse_time_indep (raw : String)
    (h : findRelDate ((senderPass (normalizeQuery raw)).1) = none) (t1 t2 : Int) :
    parseQuery raw t1 = parseQuery raw t2 := by
  simp only [parseQuery, datePass, h]

/-- Claim C9 as stated is false: the parser also reads the clock, so the
same query string parsed at two instants yields different filters
(`"today"` sets `date_to` to the current instant). -/
theorem parse_pure_cex : parseQuery "today" 0 ≠ parseQuery "today" 86400 := by
  decide

/-- Claim C9, amended: the parser is a pure function of the query string
and the current instant; it is independent of the instant whenever the
query (after the sender pass) contains no relative-date phrase. -/
theorem parse_pure_amended (raw : String) (t1 t2 : Int)
    (h : findRelDate ((senderPass (normalizeQuery raw)).1) = none) :
    parseQuery raw t1 = parseQuery raw t2 :=
  parse_time_indep raw h t1 t2

/-- Witness for the amended claim C9 at a concrete date-free query and
two distinct instants. -/
theorem parse_pure_witness :
    findRelDate ((senderPass (normalizeQuery "hello world")).1) = none ∧
    parseQuery "hello world" 3 = parseQuery "hello world" 99 :=
  ⟨by decide, parse_pure_amended "hello world" 3 99 (by decide)⟩

/-- Scenario A's query. -/
def qA : String := "emails from sender0@example.com"

/-- Claim C5 as stated is false: parsing Scenario A's query leaves the
residual keyword `"emails"`, so the cleaned query is not empty and the
search type is not `KEYWORD`. -/
theorem scenarioA_cex :
    ¬((parseQuery qA 0).cleaned_query = "" ∧
      (parseQuery qA 0).search_type = SearchType.keyword) := by
  decide

/-- Claim C5, amended: parsing `"emails from sender0@example.com"`
extracts `sender_emails = ["sender0@example.com"]`, but the residual
word `"emails"` survives as a keyword, so `cleaned_query = "emails"`
(length > 3) and, a sender filter being set, the search type is
`FILTERED` — the semantic stage is not skipped. -/
theorem scenarioA_amended (now : Int) :
    (parseQuery qA now).filters.sender_emails = ["sender0@example.com"] ∧
    (parseQuery qA now).cleaned_query = "emails" ∧
    (parseQuery qA now).search_type = SearchType.filtered ∧
    searchTypeIn (parseQuery qA now).search_type = true := by
  rw [parse_time_indep qA (by decide) now 0]
  decide

/-- Scenario B's query. -/
def qB : String := "important invoices from december 2024"

/-- Claim C6 as stated is false: the bare-name sender pattern
`from\s+(\w+)` consumes `"from december"` before the month/year pass
runs, so no date bounds are extracted and the keyword list is not
`["invoices"]`. -/
theorem scenarioB_cex :
    ¬((parseQuery qB 0).filters.date_from = some (86400 * daysFromCivil 2024 12 1) ∧
      (parseQuery qB 0).filters.keywords = ["invoices"]) := by
  decide

/-- Claim C6, amended: parsing `"important invoices from december 2024"`
sets `is_important = true`, but leaves both date bounds unset (the
sender pass consumed `"from december"`, adding `"december"` to the
keywords, so the month/year pattern no longer matches) and produces the
keyword list `["december", "invoices", "2024"]`. -/
theorem scenarioB_amended (now : Int) :
    (parseQuery qB now).filters.is_important = some true ∧
    (parseQuery qB now).filters.date_from = none ∧
    (parseQuery qB now).filters.date_to = none ∧
    (parseQuery qB now).filters.keywords = ["december", "invoices", "2024"] := by
  rw [parse_time_indep qB (by decide) now 0]
  decide

/-! Graceful degradation of the orchestrator. -/

/-- Claim C8: the success flag of the report is true iff the accumulated
error list is empty; and when the semantic stage is invoked (eligible
search type, nonempty cleaned query, nonempty query vector) and the
vector store raises, `search_emails` still returns a report — the
pipeline catches the error — whose result list is exactly the
keyword-derived pipeline output (fusion of the keyword results with an
empty semantic list, then post-filtering), whose success flag is false
and whose error list is non-empty.  `searchEmails` is a total function
in this embedding, so no exception escapes it. -/
theorem graceful_degradation :
    (∀ (db : List EmailRow) (ea qa : Bool) (er : Except String (List ℚ))
        (vr : Except String (List VectorHit)) (q : String) (a : Int)
        (cap : Nat) (now : Int),
      (searchEmails db ea qa er vr q a cap now).success = true ↔
        (searchEmails db ea qa er vr q a cap now).errors = []) ∧
    (∀ (db : List EmailRow) (v : List ℚ) (e q : String) (a : Int)
        (cap : Nat) (now : Int),
      searchTypeIn (parseQuery q now).search_type = true →
      (parseQuery q now).cleaned_query ≠ "" →
      v ≠ [] →
      (searchEmails db true true (.ok v) (.error e) q a cap now).success = false ∧
      (searchEmails db true true (.ok v) (.error e) q a cap now).errors ≠ [] ∧
      (searchEmails db true true (.ok v) (.error e) q a cap now).results =
        (applyFilters (parseQuery q now).filters
          (fuseResults (keywordSearch db a (parseQuery q now).cleaned_query
            (parseQuery q now).filters.keywords cap) [] cap)).map serializeResult) := by
  constructor
  · intro db ea qa er vr q a cap now
    simp only [searchEmails]
    exact List.isEmpty_iff
  · intro db v e q a cap now h1 h2 h3
    have h2' : (parseQuery q now).cleaned_query.isEmpty = false := by
      cases hi : (parseQuery q now).cleaned_query.isEmpty with
      | true => exact absurd ((String.isEmpty_iff _).mp hi) h2
      | false => rfl
    have h3' : v.isEmpty = false := by
      cases hv : v.isEmpty with
      | true => exact absurd (List.isEmpty_iff.mp hv) h3
      | false => rfl
    refine ⟨?_, ?_, ?_⟩ <;>
      simp only [searchEmails, h1, h2', h3', Bool.not_false, Bool.and_true,
        Bool.true_and, Bool.and_self, if_true, List.nil_append] <;>
      simp

/-- Witness for claim C8 at a concrete store, query, and failing vector
store. -/
theorem graceful_degradation_witness :
    (searchTypeIn (parseQuery "hello world" 0).search_type = true ∧
     (parseQuery "hello world" 0).cleaned_query ≠ "" ∧
     ([(1 : ℚ)] : List ℚ) ≠ []) ∧
    ((searchEmails [dbRow] true true (.ok [(1 : ℚ)]) (.error "down")
        "hello world" 1 5 0).success = false ∧
     (searchEmails [dbRow] true true (.ok [(1 : ℚ)]) (.error "down")
        "hello world" 1 5 0).errors ≠ [] ∧
     (searchEmails [dbRow] true true (.ok [(1 : ℚ)]) (.error "down")
        "hello world" 1 5 0).results =
       (applyFilters (parseQuery "hello world" 0).filters
         (fuseResults (keywordSearch [dbRow] 1 (parseQuery "hello world" 0).cleaned_query
           (parseQuery "hello world" 0).filters.keywords 5) [] 5)).map serializeResult) :=
  ⟨⟨by decide, by decide, by decide⟩,
   graceful_degradation.2 [dbRow] [(1 : ℚ)] "down" "hello world" 1 5 0
     (by decide) (by decide) (by decide)⟩

end SmartSearch

